import Mathlib

/-!
Shallow embedding of the synthtest audio library (src/wav.rs, src/basic.rs).

Frames are lists of channel values (`List α`, length `N`), the buffer is a
list of frames.  Machine integers are modelled as `ℕ`/`ℤ` with explicit
`% 2^w` where the Rust code casts or may wrap.  The `f64` computations that
the claims depend on (normalized conversion at 0.0 and 1.0, the iterator's
time cursor, the square wave's phase) are modelled over `ℚ`; at the inputs
the claims examine, the corresponding `f64` arithmetic is exact.
-/

/-- Numeric contract of the `AudioSample` trait (wav.rs lines 11-26),
together with the saturating addition that `add_data_at` uses and the
byte width that `save_to` uses (`mem::size_of::<T>()`). -/
structure SampleSpec (α : Type) where
  ZERO : α
  MIN : α
  MAX : α
  satAdd : α → α → α
  bytesPerSample : ℕ
  toLeBytes : α → List ℕ

/-- The `u8` instantiation (wav.rs lines 28-40): values are naturals below
256; `saturating_add` clamps at 255. -/
def u8Spec : SampleSpec ℕ where
  ZERO := 128
  MIN := 0
  MAX := 255
  satAdd := fun a b => min 255 (a + b)
  bytesPerSample := 1
  toLeBytes := fun a => [a % 256]

/-- The `i16` instantiation (wav.rs lines 42-54): values are integers in
[-2^15, 2^15); `saturating_add` clamps to that range; `to_le_bytes` is the
two-byte little-endian two's-complement encoding. -/
def i16Spec : SampleSpec ℤ where
  ZERO := 0
  MIN := -32768
  MAX := 32767
  satAdd := fun a b => max (-32768) (min 32767 (a + b))
  bytesPerSample := 2
  toLeBytes := fun a => [(a % 65536).toNat % 256, (a % 65536).toNat / 256 % 256]

/-- The `i32` instantiation (wav.rs lines 56-68). -/
def i32Spec : SampleSpec ℤ where
  ZERO := 0
  MIN := -2147483648
  MAX := 2147483647
  satAdd := fun a b => max (-2147483648) (min 2147483647 (a + b))
  bytesPerSample := 4
  toLeBytes := fun a =>
    [(a % 4294967296).toNat % 256, (a % 4294967296).toNat / 256 % 256,
     (a % 4294967296).toNat / 65536 % 256, (a % 4294967296).toNat / 16777216 % 256]

/-- The frame `[T::ZERO; N]` used when the buffer grows. -/
def zeroFrame (spec : SampleSpec α) (N : ℕ) : List α :=
  List.replicate N spec.ZERO

/-- `AudioData<T, N>` (wav.rs lines 74-80): a growable list of frames plus
the sample rate (a `u32` in the source, modelled as `ℕ`). -/
structure AudioData (α : Type) where
  data : List (List α)
  sample_rate : ℕ

/-- `AudioData::new` (wav.rs lines 84-89): empty data, caller-chosen rate. -/
def AudioData.new (α : Type) (sample_rate : ℕ) : AudioData α :=
  ⟨[], sample_rate⟩

/-- `AudioData::resize` (wav.rs lines 92-96): grow to `sample_count` frames
with ZERO frames; no-op when already long enough. -/
def AudioData.resize (spec : SampleSpec α) (N : ℕ) (buf : AudioData α)
    (sample_count : ℕ) : AudioData α :=
  if buf.data.length < sample_count then
    ⟨buf.data ++ List.replicate (sample_count - buf.data.length) (zeroFrame spec N),
     buf.sample_rate⟩
  else
    buf

/-- The two loops of `do_data` (wav.rs lines 107-121) over the suffix of the
buffer starting at `init_sample`: the `for` loop combines existing frames
with incoming ones until the iterator is exhausted (remaining existing
frames are left untouched by the early `return`); the `while` loop then
pushes a ZERO frame and combines it with each remaining incoming frame. -/
def doLoop (spec : SampleSpec α) (N : ℕ) (f : List α → List α → List α) :
    List (List α) → List (List α) → List (List α)
  | existing, [] => existing
  | [], t :: ts => f (zeroFrame spec N) t :: doLoop spec N f [] ts
  | e :: es, t :: ts => f e t :: doLoop spec N f es ts

/-- `AudioData::do_data` (wav.rs lines 100-123): resize up to `init_sample`,
then run the combining loops from that index on. -/
def AudioData.do_data (spec : SampleSpec α) (N : ℕ) (buf : AudioData α)
    (init_sample : ℕ) (iter : List (List α)) (f : List α → List α → List α) :
    AudioData α :=
  let b := buf.resize spec N init_sample
  ⟨b.data.take init_sample ++ doLoop spec N f (b.data.drop init_sample) iter,
   b.sample_rate⟩

/-- `AudioData::push_data` (wav.rs lines 126-128). -/
def AudioData.push_data (buf : AudioData α) (sample : List α) : AudioData α :=
  ⟨buf.data ++ [sample], buf.sample_rate⟩

/-- `AudioData::extend_data` (wav.rs lines 131-133). -/
def AudioData.extend_data (buf : AudioData α) (iter : List (List α)) : AudioData α :=
  ⟨buf.data ++ iter, buf.sample_rate⟩

/-- `AudioData::write_data_at` (wav.rs lines 137-139): `f` overwrites. -/
def AudioData.write_data_at (spec : SampleSpec α) (N : ℕ) (buf : AudioData α)
    (init_sample : ℕ) (iter : List (List α)) : AudioData α :=
  buf.do_data spec N init_sample iter (fun _ y => y)

/-- Per-frame combine of `add_data_at` (wav.rs lines 144-148):
`x.iter_mut().zip(&y)` saturating-adds channel-wise over the common length,
leaving any excess channels of `x` unchanged. -/
def addFrame (spec : SampleSpec α) (x y : List α) : List α :=
  List.zipWith spec.satAdd x y ++ x.drop y.length

/-- `AudioData::add_data_at` (wav.rs lines 143-149): `f` saturating-adds. -/
def AudioData.add_data_at (spec : SampleSpec α) (N : ℕ) (buf : AudioData α)
    (init_sample : ℕ) (iter : List (List α)) : AudioData α :=
  buf.do_data spec N init_sample iter (addFrame spec)

/-- `AudioData::byte_rate` (wav.rs lines 152-154): `u32` product
`sample_rate * N * size_of::<T>()`, wrapping modulo 2^32. -/
def AudioData.byte_rate (spec : SampleSpec α) (N : ℕ) (buf : AudioData α) : ℕ :=
  buf.sample_rate % 4294967296 * N * spec.bytesPerSample % 4294967296

/-- `AudioData::block_align` (wav.rs lines 157-159): `u16` product
`N * size_of::<T>()`, wrapping modulo 2^16. -/
def AudioData.block_align (spec : SampleSpec α) (N : ℕ) (_buf : AudioData α) : ℕ :=
  N * spec.bytesPerSample % 65536

/-- Data byte size computed by `save_to` (wav.rs line 163):
`data.len() as u32 * size_of::<T>() as u32 * N as u32`, wrapping mod 2^32. -/
def AudioData.dataSize (spec : SampleSpec α) (N : ℕ) (buf : AudioData α) : ℕ :=
  buf.data.length % 4294967296 * spec.bytesPerSample * N % 4294967296

/-- Little-endian bytes of a `u16`. -/
def u16le (n : ℕ) : List ℕ := [n % 256, n / 256 % 256]

/-- Little-endian bytes of a `u32`. -/
def u32le (n : ℕ) : List ℕ :=
  [n % 256, n / 256 % 256, n / 65536 % 256, n / 16777216 % 256]

/-- ASCII bytes of the four characters R, I, F, F. -/
def asciiRIFF : List ℕ := [82, 73, 70, 70]

/-- ASCII bytes of the eight characters W, A, V, E, f, m, t, space. -/
def asciiWAVEfmt : List ℕ := [87, 65, 86, 69, 102, 109, 116, 32]

/-- ASCII bytes of the four characters d, a, t, a. -/
def asciiDATA : List ℕ := [100, 97, 116, 97]

/-- The sequence of `write_all` calls that `save_to` (wav.rs lines 162-186)
performs after creating the file, each as its byte payload, in program
order: the eleven header writes, then one write per channel of each frame. -/
def AudioData.writeOps (spec : SampleSpec α) (N : ℕ) (buf : AudioData α) :
    List (List ℕ) :=
  [asciiRIFF,
   u32le ((36 + buf.dataSize spec N) % 4294967296),
   asciiWAVEfmt,
   [16, 0, 0, 0, 1, 0],
   u16le (N % 65536),
   u32le (buf.sample_rate % 4294967296),
   u32le (buf.byte_rate spec N),
   u16le (buf.block_align spec N),
   u16le (spec.bytesPerSample % 65536 * 8 % 65536),
   asciiDATA,
   u32le (buf.dataSize spec N)]
  ++ buf.data.flatMap (fun frame => frame.map spec.toLeBytes)

/-- The byte stream a fully successful `save_to` produces: the
concatenation of all its writes. -/
def AudioData.saveBytes (spec : SampleSpec α) (N : ℕ) (buf : AudioData α) :
    List ℕ :=
  (buf.writeOps spec N).flatten

/-- Effect model for the `?`-propagating writes of `save_to`: `oracle k`
tells whether the k-th I/O operation fails (and with which error).  Runs
the listed write payloads in order starting at operation index `k`;
returns the result of the whole sequence and the bytes actually written
to the file (writes after the first failure never happen, bytes already
written stay — no cleanup). -/
def runWrites (oracle : ℕ → Option ε) : ℕ → List (List ℕ) → Except ε Unit × List ℕ
  | _, [] => (Except.ok (), [])
  | k, o :: os =>
    match oracle k with
    | some e => (Except.error e, [])
    | none =>
      let p := runWrites oracle (k + 1) os
      (p.1, o ++ p.2)

/-- `AudioData::save_to` (wav.rs lines 162-186) under the effect model:
operation 0 is `File::create`; on its success the write payloads run as
operations 1, 2, ….  Returns the (unchanged, `&self`) buffer, the
`io::Result`, and the file's final content. -/
def AudioData.save_to (oracle : ℕ → Option ε) (spec : SampleSpec α) (N : ℕ)
    (buf : AudioData α) : AudioData α × (Except ε Unit × List ℕ) :=
  match oracle 0 with
  | some e => (buf, (Except.error e, []))
  | none => (buf, runWrites oracle 1 (buf.writeOps spec N))

/-- Buffers reachable through the public interface from `new r`
(wav.rs: `new`, `push_data`, `extend_data`, `write_data_at`,
`add_data_at`). -/
inductive Reachable (spec : SampleSpec α) (N : ℕ) (r : ℕ) : AudioData α → Prop
  | new : Reachable spec N r (AudioData.new α r)
  | push (buf : AudioData α) (frame : List α) :
      Reachable spec N r buf → Reachable spec N r (buf.push_data frame)
  | extend (buf : AudioData α) (iter : List (List α)) :
      Reachable spec N r buf → Reachable spec N r (buf.extend_data iter)
  | write (buf : AudioData α) (S : ℕ) (iter : List (List α)) :
      Reachable spec N r buf → Reachable spec N r (buf.write_data_at spec N S iter)
  | add (buf : AudioData α) (S : ℕ) (iter : List (List α)) :
      Reachable spec N r buf → Reachable spec N r (buf.add_data_at spec N S iter)

/-- A signal source (the `Instrument` trait, basic.rs line 10-12): carries
mutable state `σ`; sampling at a time yields an optional sample and the
updated state. -/
def Inst (σ α : Type) : Type := σ → ℚ → Option α × σ

/-- Default `Instrument::get_sample` (basic.rs lines 15-17):
`Some([self.get_sample_mono(time)?; N])` — one mono call whose value is
broadcast across all `N` channels; `None` propagates (after the mono
call's state update). -/
def Inst.get_sample (inst : Inst σ α) (N : ℕ) (s : σ) (time : ℚ) :
    Option (List α) × σ :=
  match inst s time with
  | (some v, s2) => (some (List.replicate N v), s2)
  | (none, s2) => (none, s2)

/-- `InstrumentIterMono` (basic.rs lines 44-49): instrument state, time
cursor, tick.  The `f64` time arithmetic is modelled over `ℚ`. -/
structure InstrumentIterMono (σ : Type) where
  state : σ
  time : ℚ
  tick : ℚ

/-- `InstrumentIterMono::new_with_time` (basic.rs lines 52-59):
`tick = 1.0 / sample_rate`. -/
def InstrumentIterMono.new_with_time (s : σ) (time : ℚ) (sample_rate : ℕ) :
    InstrumentIterMono σ :=
  ⟨s, time, 1 / (sample_rate : ℚ)⟩

/-- `InstrumentIterMono::next` (basic.rs lines 69-72): advance the cursor
by one tick, then sample the instrument at the new time. -/
def InstrumentIterMono.next (inst : Inst σ α) (it : InstrumentIterMono σ) :
    Option α × InstrumentIterMono σ :=
  let t := it.time + it.tick
  let r := inst it.state t
  (r.1, ⟨r.2, t, it.tick⟩)

/-- `InstrumentIter::next` (basic.rs lines 100-103): advance the inner
cursor by one tick, then request the broadcast `N`-channel sample. -/
def InstrumentIter.next (inst : Inst σ α) (N : ℕ) (it : InstrumentIterMono σ) :
    Option (List α) × InstrumentIterMono σ :=
  let t := it.time + it.tick
  let r := Inst.get_sample inst N it.state t
  (r.1, ⟨r.2, t, it.tick⟩)

/-- Iterator state after `k` calls to `InstrumentIterMono::next`. -/
def iterStateMono (inst : Inst σ α) (it : InstrumentIterMono σ) :
    ℕ → InstrumentIterMono σ
  | 0 => it
  | k + 1 => (InstrumentIterMono.next inst (iterStateMono inst it k)).2

/-- Output of the `(k+1)`-th call to `InstrumentIterMono::next`. -/
def iterOutMono (inst : Inst σ α) (it : InstrumentIterMono σ) (k : ℕ) :
    Option α :=
  (InstrumentIterMono.next inst (iterStateMono inst it k)).1

/-- Truncation toward zero: the rounding a Rust float-to-integer cast and
the float `%` operator use. -/
def fTrunc (x : ℚ) : ℤ :=
  if 0 ≤ x then ⌊x⌋ else ⌈x⌉

/-- Rust's `x % 1.0`: the remainder of truncating division, so
`x - trunc(x)`, carrying the sign of `x`. -/
def fRem1 (x : ℚ) : ℚ :=
  x - fTrunc x

/-- `<Square as Instrument>::get_sample_mono` (basic.rs lines 125-131):
`MIN` when `time * freq % 1.0 < 0.5`, else `MAX`; stateless apart from
the frequency, over the `ℚ` model of `f64`. -/
def Square.get_sample_mono (spec : SampleSpec α) (freq time : ℚ) : Option α :=
  some (if fRem1 (time * freq) < 1 / 2 then spec.MIN else spec.MAX)

/-- `<u8 as AudioSample>::from_f64` (wav.rs lines 33-35):
`(255.0 * x) as u8` over the `ℚ` model of `f64` (exact at the inputs the
claims examine); the Rust cast truncates toward zero and saturates to
[0, 255]. -/
def u8_from_f64 (x : ℚ) : ℕ :=
  (min 255 (max 0 (fTrunc (255 * x)))).toNat

/-- `<i16 as AudioSample>::from_f64` (wav.rs lines 47-49):
`(32767.0 * x) as i16`, truncating and saturating to [-32768, 32767]. -/
def i16_from_f64 (x : ℚ) : ℤ :=
  max (-32768) (min 32767 (fTrunc (32767 * x)))

/-- `<i32 as AudioSample>::from_f64` (wav.rs lines 61-63):
`(2147483647.0 * x) as i32`, truncating and saturating. -/
def i32_from_f64 (x : ℚ) : ℤ :=
  max (-2147483648) (min 2147483647 (fTrunc (2147483647 * x)))

/-! ## Supporting lemmas about `do_data` -/

theorem doLoop_nil_left (spec : SampleSpec α) (N : ℕ)
    (f : List α → List α → List α) (ts : List (List α)) :
    doLoop spec N f [] ts = ts.map (f (zeroFrame spec N)) := by
  induction ts with
  | nil => rfl
  | cons t ts ih => simp [doLoop, ih]

theorem doLoop_getElem_of_le (spec : SampleSpec α) (N : ℕ)
    (f : List α → List α → List α) :
    ∀ (ts es : List (List α)) (k : ℕ), ts.length ≤ k →
      (doLoop spec N f es ts)[k]? = es[k]? := by
  intro ts
  induction ts with
  | nil =>
    intro es k _
    cases es <;> rfl
  | cons t ts ih =>
    intro es k hk
    cases es with
    | nil =>
      rw [doLoop_nil_left, List.getElem?_eq_none (by simpa using hk),
        List.getElem?_eq_none (by simp)]
    | cons e es =>
      cases k with
      | zero => exact absurd hk (by simp)
      | succ k => simpa [doLoop] using ih es k (by simpa using hk)

theorem resize_data_of_le (spec : SampleSpec α) (N : ℕ) (buf : AudioData α)
    (S : ℕ) (h : buf.data.length ≤ S) :
    (buf.resize spec N S).data =
      buf.data ++ List.replicate (S - buf.data.length) (zeroFrame spec N) := by
  unfold AudioData.resize
  by_cases hlt : buf.data.length < S
  · rw [if_pos hlt]
  · rw [if_neg hlt]
    have hz : S - buf.data.length = 0 := by omega
    simp [hz]

theorem resize_sample_rate (spec : SampleSpec α) (N : ℕ) (buf : AudioData α)
    (S : ℕ) : (buf.resize spec N S).sample_rate = buf.sample_rate := by
  unfold AudioData.resize
  split <;> rfl

theorem do_data_data (spec : SampleSpec α) (N : ℕ) (buf : AudioData α)
    (S : ℕ) (iter : List (List α)) (f : List α → List α → List α) :
    (buf.do_data spec N S iter f).data =
      (buf.resize spec N S).data.take S ++
        doLoop spec N f ((buf.resize spec N S).data.drop S) iter := rfl

theorem do_data_sample_rate (spec : SampleSpec α) (N : ℕ) (buf : AudioData α)
    (S : ℕ) (iter : List (List α)) (f : List α → List α → List α) :
    (buf.do_data spec N S iter f).sample_rate = buf.sample_rate :=
  resize_sample_rate spec N buf S

theorem do_data_grow (spec : SampleSpec α) (N : ℕ) (buf : AudioData α)
    (S : ℕ) (iter : List (List α)) (f : List α → List α → List α)
    (h : buf.data.length < S) :
    (buf.do_data spec N S iter f).data =
      buf.data ++ List.replicate (S - buf.data.length) (zeroFrame spec N)
        ++ iter.map (f (zeroFrame spec N)) := by
  rw [do_data_data]
  have hdata := resize_data_of_le spec N buf S h.le
  have hlen : (buf.resize spec N S).data.length = S := by
    rw [hdata]
    simp [List.length_replicate]
    omega
  rw [List.take_of_length_le hlen.le, List.drop_eq_nil_of_le hlen.le,
    doLoop_nil_left, hdata, List.append_assoc]

theorem do_data_grow_props (spec : SampleSpec α) (N : ℕ) (buf : AudioData α)
    (S : ℕ) (iter : List (List α)) (f : List α → List α → List α)
    (h : buf.data.length < S) :
    (buf.do_data spec N S iter f).data.length = S + iter.length ∧
    (∀ i, buf.data.length ≤ i → i < S →
      (buf.do_data spec N S iter f).data[i]? = some (zeroFrame spec N)) ∧
    (∀ i, i < buf.data.length →
      (buf.do_data spec N S iter f).data[i]? = buf.data[i]?) := by
  rw [do_data_grow spec N buf S iter f h]
  refine ⟨?_, ?_, ?_⟩
  · simp [List.length_replicate]
    omega
  · intro i hi1 hi2
    rw [List.getElem?_append_left (by simp [List.length_replicate]; omega),
      List.getElem?_append_right (by omega), List.getElem?_replicate,
      if_pos (by omega)]
  · intro i hi
    rw [List.getElem?_append_left (by simp [List.length_replicate]; omega),
      List.getElem?_append_left hi]

theorem do_data_untouched (spec : SampleSpec α) (N : ℕ) (buf : AudioData α)
    (S : ℕ) (iter : List (List α)) (f : List α → List α → List α) :
    ∀ i, S + iter.length ≤ i → i < buf.data.length →
      (buf.do_data spec N S iter f).data[i]? = buf.data[i]? := by
  intro i h1 h2
  by_cases hle : buf.data.length ≤ S
  · omega
  · have hres : buf.resize spec N S = buf := by
      unfold AudioData.resize
      rw [if_neg (by omega)]
    rw [do_data_data, hres]
    have htk : (buf.data.take S).length = S := by
      rw [List.length_take]
      omega
    rw [List.getElem?_append_right (by rw [htk]; omega), htk,
      doLoop_getElem_of_le _ _ _ _ _ _ (by omega), List.getElem?_drop]
    congr 1
    omega

/-! ## Claim theorems -/

/-- C1: writing or adding a sequence of length `L` at start index `S` on a
buffer of length `len0 < S` yields a buffer of length exactly `S + L`, in
which indices `[len0, S)` hold ZERO-filled frames and indices `[0, len0)`
hold the same frames as before the call. -/
theorem c1_growth_invariant (spec : SampleSpec α) (N : ℕ) (buf : AudioData α)
    (S : ℕ) (iter : List (List α)) (h : buf.data.length < S) :
    ((buf.write_data_at spec N S iter).data.length = S + iter.length ∧
     (∀ i, buf.data.length ≤ i → i < S →
       (buf.write_data_at spec N S iter).data[i]? = some (zeroFrame spec N)) ∧
     (∀ i, i < buf.data.length →
       (buf.write_data_at spec N S iter).data[i]? = buf.data[i]?)) ∧
    ((buf.add_data_at spec N S iter).data.length = S + iter.length ∧
     (∀ i, buf.data.length ≤ i → i < S →
       (buf.add_data_at spec N S iter).data[i]? = some (zeroFrame spec N)) ∧
     (∀ i, i < buf.data.length →
       (buf.add_data_at spec N S iter).data[i]? = buf.data[i]?)) := by
  simp only [AudioData.write_data_at, AudioData.add_data_at]
  exact ⟨do_data_grow_props spec N buf S iter _ h,
    do_data_grow_props spec N buf S iter _ h⟩

/-- Witness for C1 at a concrete input: a one-frame `i16` buffer written at
start index 3 with a one-frame sequence. -/
theorem c1_growth_invariant_witness :
    ((⟨[[7]], 8000⟩ : AudioData ℤ).data.length < 3) ∧
    (((AudioData.write_data_at i16Spec 1 ⟨[[7]], 8000⟩ 3 [[5]]).data.length =
        3 + ([[(5 : ℤ)]] : List (List ℤ)).length ∧
      (∀ i, (⟨[[7]], 8000⟩ : AudioData ℤ).data.length ≤ i → i < 3 →
        (AudioData.write_data_at i16Spec 1 ⟨[[7]], 8000⟩ 3 [[5]]).data[i]? =
          some (zeroFrame i16Spec 1)) ∧
      (∀ i, i < (⟨[[7]], 8000⟩ : AudioData ℤ).data.length →
        (AudioData.write_data_at i16Spec 1 ⟨[[7]], 8000⟩ 3 [[5]]).data[i]? =
          (⟨[[7]], 8000⟩ : AudioData ℤ).data[i]?)) ∧
     ((AudioData.add_data_at i16Spec 1 ⟨[[7]], 8000⟩ 3 [[5]]).data.length =
        3 + ([[(5 : ℤ)]] : List (List ℤ)).length ∧
      (∀ i, (⟨[[7]], 8000⟩ : AudioData ℤ).data.length ≤ i → i < 3 →
        (AudioData.add_data_at i16Spec 1 ⟨[[7]], 8000⟩ 3 [[5]]).data[i]? =
          some (zeroFrame i16Spec 1)) ∧
      (∀ i, i < (⟨[[7]], 8000⟩ : AudioData ℤ).data.length →
        (AudioData.add_data_at i16Spec 1 ⟨[[7]], 8000⟩ 3 [[5]]).data[i]? =
          (⟨[[7]], 8000⟩ : AudioData ℤ).data[i]?))) :=
  ⟨by decide, c1_growth_invariant i16Spec 1 ⟨[[7]], 8000⟩ 3 [[5]] (by decide)⟩

/-- C10: after `write_data_at S iter` or `add_data_at S iter`, every index
`i` with `S + L ≤ i < len0` holds the same frame as before the call. -/
theorem c10_untouched_tail (spec : SampleSpec α) (N : ℕ) (buf : AudioData α)
    (S : ℕ) (iter : List (List α)) :
    ∀ i, S + iter.length ≤ i → i < buf.data.length →
      (buf.write_data_at spec N S iter).data[i]? = buf.data[i]? ∧
      (buf.add_data_at spec N S iter).data[i]? = buf.data[i]? := by
  intro i h1 h2
  simp only [AudioData.write_data_at, AudioData.add_data_at]
  exact ⟨do_data_untouched spec N buf S iter _ i h1 h2,
    do_data_untouched spec N buf S iter _ i h1 h2⟩

/-- Witness for C10 at a concrete input: index 4 of a five-frame buffer is
untouched by a two-frame write/add at start index 1. -/
theorem c10_untouched_tail_witness :
    (1 + ([[10], [20]] : List (List ℤ)).length ≤ 4 ∧
      4 < (⟨[[1], [2], [3], [4], [5]], 8000⟩ : AudioData ℤ).data.length) ∧
    ((AudioData.write_data_at i16Spec 1 ⟨[[1], [2], [3], [4], [5]], 8000⟩ 1
        [[10], [20]]).data[4]? =
      (⟨[[1], [2], [3], [4], [5]], 8000⟩ : AudioData ℤ).data[4]? ∧
     (AudioData.add_data_at i16Spec 1 ⟨[[1], [2], [3], [4], [5]], 8000⟩ 1
        [[10], [20]]).data[4]? =
      (⟨[[1], [2], [3], [4], [5]], 8000⟩ : AudioData ℤ).data[4]?) :=
  ⟨⟨by decide, by decide⟩,
    c10_untouched_tail i16Spec 1 ⟨[[1], [2], [3], [4], [5]], 8000⟩ 1
      [[10], [20]] 4 (by decide) (by decide)⟩

/-- C2: the per-channel combine of `add_data_at` is Rust `saturating_add`:
for each concrete sample type it equals the mathematical sum clamped to
[MIN, MAX] (so it never wraps) and its result always lies within
[MIN, MAX]; in particular `add_data_at 0 [[MAX], [MAX]]` on an `i16`
buffer holding `[[MAX], [0]]` yields `[[MAX], [MAX]]`. -/
theorem c2_saturating_add (a b : ℤ) (u v : ℕ) :
    (i16Spec.MIN ≤ i16Spec.satAdd a b ∧ i16Spec.satAdd a b ≤ i16Spec.MAX ∧
      i16Spec.satAdd a b = max i16Spec.MIN (min i16Spec.MAX (a + b))) ∧
    (i32Spec.MIN ≤ i32Spec.satAdd a b ∧ i32Spec.satAdd a b ≤ i32Spec.MAX ∧
      i32Spec.satAdd a b = max i32Spec.MIN (min i32Spec.MAX (a + b))) ∧
    (u8Spec.MIN ≤ u8Spec.satAdd u v ∧ u8Spec.satAdd u v ≤ u8Spec.MAX ∧
      u8Spec.satAdd u v = min u8Spec.MAX (u + v)) ∧
    (AudioData.add_data_at i16Spec 1 ⟨[[i16Spec.MAX], [0]], 8000⟩ 0
      [[i16Spec.MAX], [i16Spec.MAX]]).data = [[i16Spec.MAX], [i16Spec.MAX]] := by
  refine ⟨⟨?_, ?_, rfl⟩, ⟨?_, ?_, rfl⟩, ⟨?_, ?_, rfl⟩, by decide⟩
  · simp only [i16Spec]
    omega
  · simp only [i16Spec]
    omega
  · simp only [i32Spec]
    omega
  · simp only [i32Spec]
    omega
  · simp only [u8Spec]
    omega
  · simp only [u8Spec]
    omega

/-- C4 counterexample: for the unsigned 8-bit type, `from_normalized(0.0)`
is 0, which is not at or adjacent to the documented silence sentinel 128
(`u8Spec.ZERO`). -/
theorem c4_counterexample :
    u8_from_f64 0 = 0 ∧ u8Spec.ZERO = 128 ∧
    ¬ (127 ≤ u8_from_f64 0 ∧ u8_from_f64 0 ≤ 129) := by
  have h : u8_from_f64 0 = 0 := by norm_num [u8_from_f64, fTrunc]
  refine ⟨h, rfl, ?_⟩
  rw [h]
  omega

/-- C4 amended: `from_normalized(0.0)` maps to MIN (0) for unsigned 8-bit —
the bottom of the scale, not the 128 silence sentinel — and to ZERO (0)
for signed 16/32-bit; `from_normalized(1.0)` maps exactly to MAX for all
three types. -/
theorem c4_from_f64_endpoints :
    u8_from_f64 0 = u8Spec.MIN ∧ u8_from_f64 1 = u8Spec.MAX ∧
    i16_from_f64 0 = i16Spec.ZERO ∧ i16_from_f64 1 = i16Spec.MAX ∧
    i32_from_f64 0 = i32Spec.ZERO ∧ i32_from_f64 1 = i32Spec.MAX := by
  refine ⟨?_, ?_, ?_, ?_, ?_, ?_⟩
  · norm_num [u8_from_f64, fTrunc, u8Spec]
  · norm_num [u8_from_f64, fTrunc, u8Spec]
    decide
  · norm_num [i16_from_f64, fTrunc, i16Spec]
  · norm_num [i16_from_f64, fTrunc, i16Spec]
  · norm_num [i32_from_f64, fTrunc, i32Spec]
  · norm_num [i32_from_f64, fTrunc, i32Spec]

/-- C6: the square wave returns `some MIN` when `(t*freq) mod 1 < 0.5`
(Rust float remainder) and `some MAX` otherwise; it never returns the
exhausted signal and is a pure function of `t` and `freq`. -/
theorem c6_square_wave (spec : SampleSpec α) (freq time : ℚ) :
    Square.get_sample_mono spec freq time =
      some (if fRem1 (time * freq) < 1 / 2 then spec.MIN else spec.MAX) ∧
    Square.get_sample_mono spec freq time ≠ none ∧
    (fRem1 (time * freq) < 1 / 2 →
      Square.get_sample_mono spec freq time = some spec.MIN) ∧
    (¬ fRem1 (time * freq) < 1 / 2 →
      Square.get_sample_mono spec freq time = some spec.MAX) := by
  refine ⟨rfl, by simp [Square.get_sample_mono], ?_, ?_⟩
  · intro h
    simp only [Square.get_sample_mono]
    rw [if_pos h]
  · intro h
    simp only [Square.get_sample_mono]
    rw [if_neg h]

/-- Witness for C6 at a concrete input: frequency 2 Hz at time 1/8 has
phase 1/4 < 1/2, so the `u8` square wave emits `some MIN`. -/
theorem c6_square_wave_witness :
    Square.get_sample_mono u8Spec 2 (1/8) =
      some (if fRem1 ((1/8 : ℚ) * 2) < 1 / 2 then u8Spec.MIN else u8Spec.MAX) ∧
    Square.get_sample_mono u8Spec 2 (1/8) ≠ none ∧
    (fRem1 ((1/8 : ℚ) * 2) < 1 / 2 →
      Square.get_sample_mono u8Spec 2 (1/8) = some u8Spec.MIN) ∧
    (¬ fRem1 ((1/8 : ℚ) * 2) < 1 / 2 →
      Square.get_sample_mono u8Spec 2 (1/8) = some u8Spec.MAX) :=
  c6_square_wave u8Spec 2 (1/8)

/-- C9: the default multi-channel `get_sample` succeeds exactly when the
mono sample does, and on success every one of the `N` channels of the
returned frame equals the single mono sample. -/
theorem c9_broadcast (inst : Inst σ α) (N : ℕ) (s : σ) (t : ℚ) :
    ((Inst.get_sample inst N s t).1.isSome ↔ (inst s t).1.isSome) ∧
    (∀ v s2, inst s t = (some v, s2) →
      Inst.get_sample inst N s t = (some (List.replicate N v), s2) ∧
      (List.replicate N v).length = N ∧
      ∀ c ∈ List.replicate N v, c = v) := by
  constructor
  · rcases h : inst s t with ⟨r, s2⟩
    cases r <;> simp [Inst.get_sample, h]
  · intro v s2 h
    refine ⟨by simp [Inst.get_sample, h], by simp, ?_⟩
    intro c hc
    exact List.eq_of_mem_replicate hc

/-- Witness for C9 at a concrete input: the identity-time source broadcast
over 3 channels at time 5. -/
theorem c9_broadcast_witness :
    ((Inst.get_sample (fun (s : Unit) (t : ℚ) => (some t, s)) 3 () 5).1.isSome ↔
      ((fun (s : Unit) (t : ℚ) => (some t, s)) () 5).1.isSome) ∧
    (∀ v s2, (fun (s : Unit) (t : ℚ) => (some t, s)) () 5 = (some v, s2) →
      Inst.get_sample (fun (s : Unit) (t : ℚ) => (some t, s)) 3 () 5 =
        (some (List.replicate 3 v), s2) ∧
      (List.replicate 3 v).length = 3 ∧
      ∀ c ∈ List.replicate 3 v, c = v) :=
  c9_broadcast (fun (s : Unit) (t : ℚ) => (some t, s)) 3 () 5

/-- C8 counterexample: `AudioData::new` accepts any `u32` sample rate
without validation, so the buffer `new 0` — reachable through the public
interface — violates `sample_rate > 0`. -/
theorem c8_counterexample :
    Reachable i16Spec 1 0 (AudioData.new ℤ 0) ∧
    ¬ 0 < (AudioData.new ℤ 0).sample_rate :=
  ⟨Reachable.new, by decide⟩

/-- C8 amended: no operation of the public interface changes
`sample_rate`, so every buffer reachable from `new r` has sample rate
exactly `r`; the invariant `sample_rate > 0` holds precisely when the
caller constructs the buffer with a positive rate (nothing enforces it). -/
theorem c8_sample_rate_invariant (spec : SampleSpec α) (N : ℕ) (r : ℕ)
    (buf : AudioData α) (h : Reachable spec N r buf) (hr : 0 < r) :
    buf.sample_rate = r ∧ 0 < buf.sample_rate := by
  have hrate : buf.sample_rate = r := by
    induction h with
    | new => rfl
    | push buf frame hbuf ih => simpa [AudioData.push_data] using ih
    | extend buf iter hbuf ih => simpa [AudioData.extend_data] using ih
    | write buf S iter hbuf ih =>
      simpa [AudioData.write_data_at, do_data_sample_rate] using ih
    | add buf S iter hbuf ih =>
      simpa [AudioData.add_data_at, do_data_sample_rate] using ih
  exact ⟨hrate, hrate ▸ hr⟩

/-- Witness for C8 at a concrete input: a buffer built by `new 8000` then
`push_data [3]` still has sample rate 8000 > 0. -/
theorem c8_sample_rate_invariant_witness :
    Reachable i16Spec 1 8000 ((AudioData.new ℤ 8000).push_data [3]) ∧
    0 < 8000 ∧
    (((AudioData.new ℤ 8000).push_data [3]).sample_rate = 8000 ∧
      0 < ((AudioData.new ℤ 8000).push_data [3]).sample_rate) :=
  ⟨Reachable.push _ _ Reachable.new, by decide,
    c8_sample_rate_invariant i16Spec 1 8000 _
      (Reachable.push _ _ Reachable.new) (by decide)⟩

/-- Time cursor and tick of the mono rate adapter after `k` calls. -/
theorem iterStateMono_time (inst : Inst σ α) (it : InstrumentIterMono σ) :
    ∀ k : ℕ, (iterStateMono inst it k).time = it.time + k * it.tick ∧
      (iterStateMono inst it k).tick = it.tick := by
  intro k
  induction k with
  | zero => simp [iterStateMono]
  | succ k ih =>
    refine ⟨?_, ?_⟩
    · show (iterStateMono inst it k).time + (iterStateMono inst it k).tick =
        it.time + (k + 1 : ℕ) * it.tick
      rw [ih.1, ih.2]
      push_cast
      ring
    · exact ih.2

/-- C5: the rate adapter advances its time cursor by `tick = 1/sample_rate`
before each sampling call: after `k` calls the cursor is
`start_time + k * tick`, the `(k+1)`-th mono output is the source sampled
at `start_time + (k+1) * tick` (threading the source's state), the
`(k+1)`-th multi-channel output is the broadcast sample at the same time,
and an output is the exhausted signal exactly when the source returns
`none` at that call. -/
theorem c5_rate_adapter (inst : Inst σ α) (s : σ) (t0 : ℚ) (rate : ℕ)
    (k : ℕ) (N : ℕ) (hrate : 0 < rate) :
    (iterStateMono inst (InstrumentIterMono.new_with_time s t0 rate) k).time =
      t0 + k * (1 / (rate : ℚ)) ∧
    iterOutMono inst (InstrumentIterMono.new_with_time s t0 rate) k =
      (inst
        (iterStateMono inst (InstrumentIterMono.new_with_time s t0 rate) k).state
        (t0 + (k + 1) * (1 / (rate : ℚ)))).1 ∧
    (InstrumentIter.next inst N
        (iterStateMono inst (InstrumentIterMono.new_with_time s t0 rate) k)).1 =
      (Inst.get_sample inst N
        (iterStateMono inst (InstrumentIterMono.new_with_time s t0 rate) k).state
        (t0 + (k + 1) * (1 / (rate : ℚ)))).1 ∧
    (iterOutMono inst (InstrumentIterMono.new_with_time s t0 rate) k = none ↔
      (inst
        (iterStateMono inst (InstrumentIterMono.new_with_time s t0 rate) k).state
        (t0 + (k + 1) * (1 / (rate : ℚ)))).1 = none) := by
  have htt := iterStateMono_time inst (InstrumentIterMono.new_with_time s t0 rate) k
  have ht0 : (InstrumentIterMono.new_with_time s t0 rate : InstrumentIterMono σ).time = t0 := rfl
  have htk : (InstrumentIterMono.new_with_time s t0 rate : InstrumentIterMono σ).tick =
      1 / (rate : ℚ) := rfl
  rw [ht0, htk] at htt
  have hsample : (iterStateMono inst (InstrumentIterMono.new_with_time s t0 rate) k).time +
      (iterStateMono inst (InstrumentIterMono.new_with_time s t0 rate) k).tick =
      t0 + (k + 1) * (1 / (rate : ℚ)) := by
    rw [htt.1, htt.2]
    ring
  refine ⟨htt.1, ?_, ?_, ?_⟩
  · show (inst (iterStateMono inst (InstrumentIterMono.new_with_time s t0 rate) k).state
        ((iterStateMono inst (InstrumentIterMono.new_with_time s t0 rate) k).time +
          (iterStateMono inst (InstrumentIterMono.new_with_time s t0 rate) k).tick)).1 = _
    rw [hsample]
  · show (Inst.get_sample inst N
        (iterStateMono inst (InstrumentIterMono.new_with_time s t0 rate) k).state
        ((iterStateMono inst (InstrumentIterMono.new_with_time s t0 rate) k).time +
          (iterStateMono inst (InstrumentIterMono.new_with_time s t0 rate) k).tick)).1 = _
    rw [hsample]
  · constructor
    · intro hnone
      calc (inst (iterStateMono inst (InstrumentIterMono.new_with_time s t0 rate) k).state
            (t0 + (k + 1) * (1 / (rate : ℚ)))).1
          = iterOutMono inst (InstrumentIterMono.new_with_time s t0 rate) k := by
            show _ = (inst _ ((iterStateMono inst (InstrumentIterMono.new_with_time s t0 rate) k).time +
              (iterStateMono inst (InstrumentIterMono.new_with_time s t0 rate) k).tick)).1
            rw [hsample]
        _ = none := hnone
    · intro hnone
      calc iterOutMono inst (InstrumentIterMono.new_with_time s t0 rate) k
          = (inst (iterStateMono inst (InstrumentIterMono.new_with_time s t0 rate) k).state
              (t0 + (k + 1) * (1 / (rate : ℚ)))).1 := by
            show (inst _ ((iterStateMono inst (InstrumentIterMono.new_with_time s t0 rate) k).time +
              (iterStateMono inst (InstrumentIterMono.new_with_time s t0 rate) k).tick)).1 = _
            rw [hsample]
        _ = none := hnone

/-- Witness for C5 at a concrete input: the identity-time source at start
time 0 and sample rate 4; after 2 calls the cursor is 2/4, and the third
outputs sample the source at 3/4. -/
theorem c5_rate_adapter_witness :
    0 < 4 ∧
    ((iterStateMono (fun (s : Unit) (t : ℚ) => (some t, s))
        (InstrumentIterMono.new_with_time () 0 4) 2).time =
      0 + ((2 : ℕ) : ℚ) * (1 / ((4 : ℕ) : ℚ)) ∧
    iterOutMono (fun (s : Unit) (t : ℚ) => (some t, s))
        (InstrumentIterMono.new_with_time () 0 4) 2 =
      ((fun (s : Unit) (t : ℚ) => (some t, s))
        (iterStateMono (fun (s : Unit) (t : ℚ) => (some t, s))
          (InstrumentIterMono.new_with_time () 0 4) 2).state
        (0 + (((2 : ℕ) : ℚ) + 1) * (1 / ((4 : ℕ) : ℚ)))).1 ∧
    (InstrumentIter.next (fun (s : Unit) (t : ℚ) => (some t, s)) 3
        (iterStateMono (fun (s : Unit) (t : ℚ) => (some t, s))
          (InstrumentIterMono.new_with_time () 0 4) 2)).1 =
      (Inst.get_sample (fun (s : Unit) (t : ℚ) => (some t, s)) 3
        (iterStateMono (fun (s : Unit) (t : ℚ) => (some t, s))
          (InstrumentIterMono.new_with_time () 0 4) 2).state
        (0 + (((2 : ℕ) : ℚ) + 1) * (1 / ((4 : ℕ) : ℚ)))).1 ∧
    (iterOutMono (fun (s : Unit) (t : ℚ) => (some t, s))
        (InstrumentIterMono.new_with_time () 0 4) 2 = none ↔
      ((fun (s : Unit) (t : ℚ) => (some t, s))
        (iterStateMono (fun (s : Unit) (t : ℚ) => (some t, s))
          (InstrumentIterMono.new_with_time () 0 4) 2).state
        (0 + (((2 : ℕ) : ℚ) + 1) * (1 / ((4 : ℕ) : ℚ)))).1 = none)) :=
  ⟨by decide,
    c5_rate_adapter (fun (s : Unit) (t : ℚ) => (some t, s)) () 0 4 2 3 (by decide)⟩

/-- Flattening per-frame per-channel byte chunks equals flat-mapping the
channel encoder over each frame. -/
theorem flatten_flatMap_map (g : β → List ℕ) (l : List (List β)) :
    (l.flatMap (fun fr => fr.map g)).flatten =
      l.flatMap (fun fr => fr.flatMap g) := by
  induction l with
  | nil => rfl
  | cons fr l ih =>
    rw [List.flatMap_cons, List.flatMap_cons, List.flatten_append, ih]
    congr 1

/-- C3: when the derived quantities fit their machine widths, a successful
save writes RIFF, chunk size `36 + data size`, the fixed fmt prologue, the
channel count, the sample rate, byte rate `sample_rate * N *
bytes_per_sample`, block align `N * bytes_per_sample`, bits per sample
`bytes_per_sample * 8`, the data tag, data size `frame_count * N *
bytes_per_sample`, then every frame's channels in order in little-endian;
moreover `byte_rate = sample_rate * block_align`. -/
theorem c3_save_format (spec : SampleSpec α) (N : ℕ) (buf : AudioData α)
    (hlen : buf.data.length < 4294967296)
    (hsz : 36 + buf.data.length * N * spec.bytesPerSample < 4294967296)
    (hsr : buf.sample_rate < 4294967296)
    (hbr : buf.sample_rate * N * spec.bytesPerSample < 4294967296)
    (hN : N < 65536)
    (hba : N * spec.bytesPerSample < 65536)
    (hbits : spec.bytesPerSample * 8 < 65536) :
    buf.saveBytes spec N =
      asciiRIFF ++ u32le (36 + buf.data.length * N * spec.bytesPerSample) ++
      asciiWAVEfmt ++ [16, 0, 0, 0, 1, 0] ++ u16le N ++
      u32le buf.sample_rate ++
      u32le (buf.sample_rate * N * spec.bytesPerSample) ++
      u16le (N * spec.bytesPerSample) ++ u16le (spec.bytesPerSample * 8) ++
      asciiDATA ++ u32le (buf.data.length * N * spec.bytesPerSample) ++
      buf.data.flatMap (fun frame => frame.flatMap spec.toLeBytes) ∧
    buf.byte_rate spec N = buf.sample_rate * buf.block_align spec N ∧
    buf.block_align spec N = N * spec.bytesPerSample ∧
    buf.dataSize spec N = buf.data.length * N * spec.bytesPerSample := by
  have hds : buf.dataSize spec N = buf.data.length * N * spec.bytesPerSample := by
    unfold AudioData.dataSize
    rw [Nat.mod_eq_of_lt hlen, Nat.mul_right_comm]
    exact Nat.mod_eq_of_lt (by omega)
  have hba2 : buf.block_align spec N = N * spec.bytesPerSample := by
    unfold AudioData.block_align
    exact Nat.mod_eq_of_lt hba
  have hbr2 : buf.byte_rate spec N = buf.sample_rate * N * spec.bytesPerSample := by
    unfold AudioData.byte_rate
    rw [Nat.mod_eq_of_lt hsr]
    exact Nat.mod_eq_of_lt hbr
  have hbits2 : spec.bytesPerSample % 65536 * 8 % 65536 = spec.bytesPerSample * 8 := by
    rw [Nat.mod_eq_of_lt (show spec.bytesPerSample < 65536 by omega)]
    exact Nat.mod_eq_of_lt hbits
  refine ⟨?_, ?_, hba2, hds⟩
  · unfold AudioData.saveBytes AudioData.writeOps
    rw [hds, hbr2, hba2, hbits2, Nat.mod_eq_of_lt hsr, Nat.mod_eq_of_lt hN,
      Nat.mod_eq_of_lt hsz, List.flatten_append]
    rw [flatten_flatMap_map]
    simp only [List.flatten_cons, List.flatten_nil, List.append_nil,
      List.append_assoc]
  · rw [hbr2, hba2]
    ring

/-- Witness for C3: the spec's reference scenario — an `i16`, one-channel,
8000 Hz buffer holding 100, -50, 200. -/
theorem c3_save_format_witness :
    ((⟨[[100], [-50], [200]], 8000⟩ : AudioData ℤ).data.length < 4294967296 ∧
     36 + (⟨[[100], [-50], [200]], 8000⟩ : AudioData ℤ).data.length * 1 *
       i16Spec.bytesPerSample < 4294967296 ∧
     (⟨[[100], [-50], [200]], 8000⟩ : AudioData ℤ).sample_rate < 4294967296 ∧
     (⟨[[100], [-50], [200]], 8000⟩ : AudioData ℤ).sample_rate * 1 *
       i16Spec.bytesPerSample < 4294967296 ∧
     1 < 65536 ∧ 1 * i16Spec.bytesPerSample < 65536 ∧
     i16Spec.bytesPerSample * 8 < 65536) ∧
    ((⟨[[100], [-50], [200]], 8000⟩ : AudioData ℤ).saveBytes i16Spec 1 =
      asciiRIFF ++
      u32le (36 + (⟨[[100], [-50], [200]], 8000⟩ : AudioData ℤ).data.length * 1 *
        i16Spec.bytesPerSample) ++
      asciiWAVEfmt ++ [16, 0, 0, 0, 1, 0] ++ u16le 1 ++
      u32le (⟨[[100], [-50], [200]], 8000⟩ : AudioData ℤ).sample_rate ++
      u32le ((⟨[[100], [-50], [200]], 8000⟩ : AudioData ℤ).sample_rate * 1 *
        i16Spec.bytesPerSample) ++
      u16le (1 * i16Spec.bytesPerSample) ++ u16le (i16Spec.bytesPerSample * 8) ++
      asciiDATA ++
      u32le ((⟨[[100], [-50], [200]], 8000⟩ : AudioData ℤ).data.length * 1 *
        i16Spec.bytesPerSample) ++
      (⟨[[100], [-50], [200]], 8000⟩ : AudioData ℤ).data.flatMap
        (fun frame => frame.flatMap i16Spec.toLeBytes) ∧
     (⟨[[100], [-50], [200]], 8000⟩ : AudioData ℤ).byte_rate i16Spec 1 =
       (⟨[[100], [-50], [200]], 8000⟩ : AudioData ℤ).sample_rate *
         (⟨[[100], [-50], [200]], 8000⟩ : AudioData ℤ).block_align i16Spec 1 ∧
     (⟨[[100], [-50], [200]], 8000⟩ : AudioData ℤ).block_align i16Spec 1 =
       1 * i16Spec.bytesPerSample ∧
     (⟨[[100], [-50], [200]], 8000⟩ : AudioData ℤ).dataSize i16Spec 1 =
       (⟨[[100], [-50], [200]], 8000⟩ : AudioData ℤ).data.length * 1 *
         i16Spec.bytesPerSample) :=
  ⟨⟨by decide, by decide, by decide, by decide, by decide, by decide, by decide⟩,
    c3_save_format i16Spec 1 ⟨[[100], [-50], [200]], 8000⟩ (by decide) (by decide)
      (by decide) (by decide) (by decide) (by decide) (by decide)⟩

/-- Running the writes with no failing operation succeeds and writes every
payload in order. -/
theorem runWrites_all_none (oracle : ℕ → Option ε) :
    ∀ (ops : List (List ℕ)) (k : ℕ),
      (∀ j, j < ops.length → oracle (k + j) = none) →
      runWrites oracle k ops = (Except.ok (), ops.flatten) := by
  intro ops
  induction ops with
  | nil =>
    intro k _
    rfl
  | cons o os ih =>
    intro k h
    have h0 : oracle k = none := by simpa using h 0 (by simp)
    have hrec := ih (k + 1) (fun j hj => by
      rw [show k + 1 + j = k + (j + 1) by omega]
      exact h (j + 1) (by simpa using hj))
    simp [runWrites, h0, hrec]

/-- Running the writes with first failure at offset `j` surfaces that
operation's error; the payloads before it stay written, nothing after is. -/
theorem runWrites_first_err (oracle : ℕ → Option ε) (e : ε) :
    ∀ (ops : List (List ℕ)) (k j : ℕ), j < ops.length → oracle (k + j) = some e →
      (∀ i, i < j → oracle (k + i) = none) →
      runWrites oracle k ops = (Except.error e, (ops.take j).flatten) := by
  intro ops
  induction ops with
  | nil =>
    intro k j hj _ _
    exact absurd hj (by simp)
  | cons o os ih =>
    intro k j hj he hb
    cases j with
    | zero =>
      rw [Nat.add_zero] at he
      simp [runWrites, he]
    | succ j =>
      have h0 : oracle k = none := by simpa using hb 0 (by omega)
      have hrec := ih (k + 1) j (by simpa using hj)
        (by rw [show k + 1 + j = k + (j + 1) by omega]; exact he)
        (fun i hi => by
          rw [show k + 1 + i = k + (i + 1) by omega]
          exact hb (i + 1) (by omega))
      simp [runWrites, h0, hrec]

/-- The run of the writes succeeds exactly when no operation in range
fails. -/
theorem runWrites_ok_iff (oracle : ℕ → Option ε) :
    ∀ (ops : List (List ℕ)) (k : ℕ),
      (runWrites oracle k ops).1 = Except.ok () ↔
        ∀ j, j < ops.length → oracle (k + j) = none := by
  intro ops
  induction ops with
  | nil =>
    intro k
    simp [runWrites]
  | cons o os ih =>
    intro k
    cases h0 : oracle k with
    | some e =>
      simp only [runWrites, h0]
      constructor
      · intro h
        exact absurd h (by simp)
      · intro hall
        have h1 := hall 0 (by simp)
        rw [Nat.add_zero] at h1
        rw [h1] at h0
        exact Option.noConfusion h0
    | none =>
      simp only [runWrites, h0, List.length_cons]
      rw [ih (k + 1)]
      constructor
      · intro h j hj
        cases j with
        | zero =>
          rw [Nat.add_zero]
          exact h0
        | succ j =>
          rw [show k + (j + 1) = k + 1 + j by omega]
          exact h j (by omega)
      · intro h j hj
        rw [show k + 1 + j = k + (j + 1) by omega]
        exact h (j + 1) (by omega)

/-- C7: `save_to` leaves the in-memory buffer unchanged, returns `Ok` if
and only if file creation (operation 0) and every write (operations
1..len) succeed, surfaces the first failing operation's error unchanged
with no retry, and leaves the partial file content (the payloads written
before the failure) in place — no cleanup. -/
theorem c7_save_to_io (oracle : ℕ → Option ε) (spec : SampleSpec α) (N : ℕ)
    (buf : AudioData α) :
    (buf.save_to oracle spec N).1 = buf ∧
    ((buf.save_to oracle spec N).2.1 = Except.ok () ↔
      ∀ j, j ≤ (buf.writeOps spec N).length → oracle j = none) ∧
    (∀ e, oracle 0 = some e →
      (buf.save_to oracle spec N).2 = (Except.error e, [])) ∧
    (∀ j e, j < (buf.writeOps spec N).length → oracle (j + 1) = some e →
      (∀ i, i < j + 1 → oracle i = none) →
      (buf.save_to oracle spec N).2 =
        (Except.error e, ((buf.writeOps spec N).take j).flatten)) ∧
    ((∀ j, j ≤ (buf.writeOps spec N).length → oracle j = none) →
      (buf.save_to oracle spec N).2 = (Except.ok (), buf.saveBytes spec N)) := by
  refine ⟨?_, ?_, ?_, ?_, ?_⟩
  · cases h0 : oracle 0 <;> simp [AudioData.save_to, h0]
  · cases h0 : oracle 0 with
    | some e =>
      simp only [AudioData.save_to, h0]
      constructor
      · intro h
        exact absurd h (by simp)
      · intro hall
        have h1 := hall 0 (by omega)
        rw [h1] at h0
        exact Option.noConfusion h0
    | none =>
      simp only [AudioData.save_to, h0]
      rw [runWrites_ok_iff oracle (buf.writeOps spec N) 1]
      constructor
      · intro h j hj
        cases j with
        | zero => exact h0
        | succ j =>
          rw [show j + 1 = 1 + j by omega]
          exact h j (by omega)
      · intro h j hj
        rw [show 1 + j = j + 1 by omega]
        exact h (j + 1) (by omega)
  · intro e he
    simp [AudioData.save_to, he]
  · intro j e hj he hb
    have h0 : oracle 0 = none := hb 0 (by omega)
    simp only [AudioData.save_to, h0]
    exact runWrites_first_err oracle e (buf.writeOps spec N) 1 j hj
      (by rw [show 1 + j = j + 1 by omega]; exact he)
      (fun i hi => by
        rw [show 1 + i = i + 1 by omega]
        exact hb (i + 1) (by omega))
  · intro hall
    have h0 : oracle 0 = none := hall 0 (by omega)
    simp only [AudioData.save_to, h0]
    exact runWrites_all_none oracle (buf.writeOps spec N) 1
      (fun j hj => by
        rw [show 1 + j = j + 1 by omega]
        exact hall (j + 1) (by omega))

/-- Witness for C7 at a concrete input: a one-frame `i16` buffer saved
under an oracle whose operation 3 fails. -/
theorem c7_save_to_io_witness :
    ((⟨[[100]], 8000⟩ : AudioData ℤ).save_to
        (fun k => if k = 3 then some (0 : ℕ) else none) i16Spec 1).1 =
      (⟨[[100]], 8000⟩ : AudioData ℤ) ∧
    (((⟨[[100]], 8000⟩ : AudioData ℤ).save_to
        (fun k => if k = 3 then some (0 : ℕ) else none) i16Spec 1).2.1 =
        Except.ok () ↔
      ∀ j, j ≤ ((⟨[[100]], 8000⟩ : AudioData ℤ).writeOps i16Spec 1).length →
        (fun k => if k = 3 then some (0 : ℕ) else none) j = none) ∧
    (∀ e, (fun k => if k = 3 then some (0 : ℕ) else none) 0 = some e →
      ((⟨[[100]], 8000⟩ : AudioData ℤ).save_to
        (fun k => if k = 3 then some (0 : ℕ) else none) i16Spec 1).2 =
        (Except.error e, [])) ∧
    (∀ j e, j < ((⟨[[100]], 8000⟩ : AudioData ℤ).writeOps i16Spec 1).length →
      (fun k => if k = 3 then some (0 : ℕ) else none) (j + 1) = some e →
      (∀ i, i < j + 1 → (fun k => if k = 3 then some (0 : ℕ) else none) i = none) →
      ((⟨[[100]], 8000⟩ : AudioData ℤ).save_to
        (fun k => if k = 3 then some (0 : ℕ) else none) i16Spec 1).2 =
        (Except.error e,
          (((⟨[[100]], 8000⟩ : AudioData ℤ).writeOps i16Spec 1).take j).flatten)) ∧
    ((∀ j, j ≤ ((⟨[[100]], 8000⟩ : AudioData ℤ).writeOps i16Spec 1).length →
        (fun k => if k = 3 then some (0 : ℕ) else none) j = none) →
      ((⟨[[100]], 8000⟩ : AudioData ℤ).save_to
        (fun k => if k = 3 then some (0 : ℕ) else none) i16Spec 1).2 =
        (Except.ok (), (⟨[[100]], 8000⟩ : AudioData ℤ).saveBytes i16Spec 1)) :=
  c7_save_to_io (fun k => if k = 3 then some (0 : ℕ) else none) i16Spec 1
    ⟨[[100]], 8000⟩
